import Mathlib

/-!
Shallow embedding of the voicey voice-todo application core:
the command interpreter (src/utils/speech.ts), the task command
executor (useTodos hook), and the recognition session state machine
with adaptive confidence threshold (useSpeechRecognition hook),
together with theorems checking the natural-language specification.

Strings are modelled as `List Char`; JavaScript regular-expression
matching is embedded as explicit scanning functions that follow the
exact patterns, alternation order and greediness of the source.
-/

namespace Voicey

/-- JS regex word character class `\w` = `[A-Za-z0-9_]`. -/
def isWordChar (c : Char) : Bool :=
  c.isAlphanum || c == '_'

/-- Whitespace recognized by JS `trim` / `parseInt` leading-space skip
(space, tab, LF, CR, VT, FF, NBSP). -/
def isSpaceJS (c : Char) : Bool :=
  c == ' ' || c == '\t' || c == '\n' || c == '\r' ||
  c.toNat == 11 || c.toNat == 12 || c.toNat == 160

/-- JS `String.prototype.trim`: strip whitespace from both ends. -/
def trimJS (l : List Char) : List Char :=
  ((l.dropWhile isSpaceJS).reverse.dropWhile isSpaceJS).reverse

/-- JS regex line terminators, which `.` (without the `s` flag) does not match. -/
def isLineTerm (c : Char) : Bool :=
  c == '\n' || c == '\r' || c.toNat == 8232 || c.toNat == 8233

/-- Whether `.` can match every character of `l`. -/
def noLineTerm (l : List Char) : Bool :=
  l.all (fun c => !isLineTerm c)

/-- Test `matchesAt p t`: pattern `p` matches literally at the head of `t`. -/
def matchesAt : List Char → List Char → Bool
  | [], _ => true
  | _ :: _, [] => false
  | p :: ps, c :: cs => p == c && matchesAt ps cs

/-- Case-insensitive variant of `matchesAt` (pattern given in lower case),
for the `/i`-flagged regexes of `cleanTaskText`. -/
def matchesAtCI : List Char → List Char → Bool
  | [], _ => true
  | _ :: _, [] => false
  | p :: ps, c :: cs => p == c.toLower && matchesAtCI ps cs

/-- JS `String.prototype.includes`: `p` occurs as a substring of the text. -/
def containsL (p : List Char) : List Char → Bool
  | [] => matchesAt p []
  | c :: rest => matchesAt p (c :: rest) || containsL p rest

/-- Substring test with a string-literal pattern. -/
def containsStr (p : String) (t : List Char) : Bool :=
  containsL p.data t

/-- Suffix test. -/
def endsWithL (p t : List Char) : Bool :=
  matchesAt p.reverse t.reverse

/-- Scan a text left to right and return the first position where `f`
produces a value: leftmost-match search of an unanchored JS regex. -/
def scanFirst {α : Type} (f : List Char → Option α) : List Char → Option α
  | [] => f []
  | c :: rest =>
    match f (c :: rest) with
    | some r => some r
    | none => scanFirst f rest

/-- Anchored `^head(.+)$` match: `head` (a literal, normally ending in a
space) must occur at the start, and the nonempty remainder is the capture;
`.` excludes line terminators and `$` only matches at the very end. -/
def tailCapture (head : String) (t : List Char) : Option (List Char) :=
  if matchesAt head.data t then
    let rest := t.drop head.data.length
    if rest.isEmpty then none
    else if noLineTerm rest then some rest else none
  else none

/-- First pattern of the shape `^head(.+)$` in an ordered list that matches. -/
def firstTail : List String → List Char → Option (List Char)
  | [], _ => none
  | h :: hs, t =>
    match tailCapture h t with
    | some r => some r
    | none => firstTail hs t

/-- Anchored `^head(\d+)$` match: literal head followed by one or more
decimal digits reaching the end of the text. -/
def digitCapture (head : String) (t : List Char) : Option (List Char) :=
  if matchesAt head.data t then
    let rest := t.drop head.data.length
    if !rest.isEmpty && rest.all Char.isDigit then some rest else none
  else none

/-- One decomposition attempt for `^mark (.+) as (?:done|complete)$`:
the remainder after `mark ` must end with the given literal tail, and the
greedy `(.+)` capture is everything before it (nonempty, no line terminator). -/
def markSplit (tail : String) (rest : List Char) : Option (List Char) :=
  if endsWithL tail.data rest then
    let mid := rest.take (rest.length - tail.data.length)
    if !mid.isEmpty && noLineTerm mid then some mid else none
  else none

/-- Pattern `^mark (.+) as (?:done|complete)$`. The two possible tails are mutually
exclusive as suffixes, so trying the longer-capture split first is exactly
the greedy behaviour of the JS engine. -/
def markCapture (t : List Char) : Option (List Char) :=
  if matchesAt "mark ".data t then
    match markSplit " as done" (t.drop 5) with
    | some m => some m
    | none => markSplit " as complete" (t.drop 5)
  else none

/-- Maximal run of `\w` characters at the head of the text (greedy `\w+`). -/
def wordRun (l : List Char) : List Char :=
  l.takeWhile isWordChar

/-- Decimal value of a digit list. -/
def decVal (l : List Char) : Nat :=
  l.foldl (fun a c => a * 10 + (c.toNat - 48)) 0

/-- Hex digit test for JS `parseInt` with a `0x` prefix. -/
def isHexDigitJS (c : Char) : Bool :=
  c.isDigit || ('a' ≤ c && c ≤ 'f') || ('A' ≤ c && c ≤ 'F')

/-- Hex digit value. -/
def hexDigitVal (c : Char) : Nat :=
  if c.isDigit then c.toNat - 48
  else if 'a' ≤ c && c ≤ 'f' then c.toNat - 87
  else c.toNat - 55

/-- Hex value of a digit list. -/
def hexVal (l : List Char) : Nat :=
  l.foldl (fun a c => a * 16 + hexDigitVal c) 0

/-- JS `parseInt(s)` with the default radix: skip leading whitespace, read an
optional sign, detect a `0x`/`0X` prefix (radix 16), then consume leading
digits; `none` models `NaN` (no digits). -/
def parseIntJS (l : List Char) : Option Int :=
  let l1 := l.dropWhile isSpaceJS
  let signed : Bool × List Char :=
    match l1 with
    | '-' :: r => (true, r)
    | '+' :: r => (false, r)
    | _ => (false, l1)
  let neg := signed.1
  let l2 := signed.2
  if matchesAt "0x".data l2 || matchesAt "0X".data l2 then
    let ds := (l2.drop 2).takeWhile isHexDigitJS
    if ds.isEmpty then none
    else some (if neg then -(hexVal ds : Int) else (hexVal ds : Int))
  else
    let ds := l2.takeWhile Char.isDigit
    if ds.isEmpty then none
    else some (if neg then -(decVal ds : Int) else (decVal ds : Int))

/-- Todo priority (`Todo['priority']` in types.ts). -/
inductive Priority
  | low
  | medium
  | high
deriving DecidableEq, Repr

/-- Command intent (`VoiceCommand['action']`, restricted to the variants
produced by `parseVoiceCommand`). -/
inductive VAction
  | add
  | complete
  | delete
  | clear
  | unknown
deriving DecidableEq, Repr

/-- Structure `VoiceCommand` from types.ts: an action plus optional payload fields
(`undefined` modelled as `none`). -/
structure VoiceCommand where
  action : VAction
  text : Option (List Char) := none
  priority : Option Priority := none
  category : Option (List Char) := none
  index : Option Int := none
deriving DecidableEq, Repr

/-- Function `extractPriority` (speech.ts): case-sensitive substring tests. -/
def extractPriority (t : List Char) : Priority :=
  if containsStr "urgent" t || containsStr "high priority" t || containsStr "important" t then
    .high
  else if containsStr "medium priority" t || containsStr "normal" t then
    .medium
  else
    .low

/-- One alternative of `(?:in|for|under) (\w+) category` at a fixed position:
literal head, then a nonempty greedy word run, then the literal ` category`. -/
def catWordAt (head : String) (t : List Char) : Option (List Char) :=
  if matchesAt head.data t then
    let rest := t.drop head.data.length
    let w := wordRun rest
    if w.isEmpty then none
    else if matchesAt " category".data (rest.drop w.length) then some w else none
  else none

/-- Pattern `(?:in|for|under) (\w+) category` at a fixed position, alternatives in
source order. -/
def catPatternAAt (t : List Char) : Option (List Char) :=
  match catWordAt "in " t with
  | some w => some w
  | none =>
    match catWordAt "for " t with
    | some w => some w
    | none => catWordAt "under " t

/-- Pattern `categorize as (\w+)` at a fixed position. -/
def catPatternBAt (t : List Char) : Option (List Char) :=
  if matchesAt "categorize as ".data t then
    let w := wordRun (t.drop 14)
    if w.isEmpty then none else some w
  else none

/-- Pattern `tag (\w+)` at a fixed position. -/
def catPatternCAt (t : List Char) : Option (List Char) :=
  if matchesAt "tag ".data t then
    let w := wordRun (t.drop 4)
    if w.isEmpty then none else some w
  else none

/-- Function `extractCategory` (speech.ts): try each pattern over the whole text in
order, leftmost match per pattern, capture the word. -/
def extractCategory (t : List Char) : Option (List Char) :=
  match scanFirst catPatternAAt t with
  | some w => some w
  | none =>
    match scanFirst catPatternBAt t with
    | some w => some w
    | none => scanFirst catPatternCAt t

/-- No word character right after position `n` (the `\b` assertion at the
end of a match whose last character is a word character). -/
def noWordAt (l : List Char) (n : Nat) : Bool :=
  match l.drop n with
  | [] => true
  | d :: _ => !isWordChar d

/-- The priority / category phrases removed by `cleanTaskText`'s first
regex, in alternation order. -/
def priorityPhrases : List String :=
  ["urgent", "high priority", "important", "medium priority", "normal", "low priority"]

/-- Match length at a position for
`\b(urgent|high priority|important|medium priority|normal|low priority)\b` (ci).
`prevW` tells whether the previous character is a word character. -/
def priorityRule (prevW : Bool) (l : List Char) : Option Nat :=
  if prevW then none
  else
    (priorityPhrases.map (fun p =>
      if matchesAtCI p.data l && noWordAt l p.data.length then some p.data.length else none)).foldl
      (fun acc r => match acc with
        | some n => some n
        | none => r) none

/-- One alternative of `\b(?:in|for|under) \w+ category\b` (ci) at a position. -/
def catPhraseAt (head : String) (l : List Char) : Option Nat :=
  if matchesAtCI head.data l then
    let rest := l.drop head.data.length
    let w := wordRun rest
    if w.isEmpty then none
    else if matchesAtCI " category".data (rest.drop w.length) &&
            noWordAt rest (w.length + " category".data.length) then
      some (head.data.length + w.length + " category".data.length)
    else none
  else none

/-- Match length at a position for `\b(?:in|for|under) \w+ category\b` (ci). -/
def catPhraseRule (prevW : Bool) (l : List Char) : Option Nat :=
  if prevW then none
  else
    match catPhraseAt "in " l with
    | some n => some n
    | none =>
      match catPhraseAt "for " l with
      | some n => some n
      | none => catPhraseAt "under " l

/-- Match length at a position for `\bcategorize as \w+\b` (ci); the trailing
`\b` holds automatically after a maximal word run. -/
def categorizeRule (prevW : Bool) (l : List Char) : Option Nat :=
  if prevW then none
  else if matchesAtCI "categorize as ".data l then
    let w := wordRun (l.drop 14)
    if w.isEmpty then none else some (14 + w.length)
  else none

/-- Match length at a position for `\btag \w+\b` (ci). -/
def tagRule (prevW : Bool) (l : List Char) : Option Nat :=
  if prevW then none
  else if matchesAtCI "tag ".data l then
    let w := wordRun (l.drop 4)
    if w.isEmpty then none else some (4 + w.length)
  else none

/-- Global regex replacement by the empty string: scan left to right over the
original text, delete each non-overlapping match, resume after it. `fuel`
bounds the recursion (one unit per step; each step consumes at least one
character, so `fuel = length` suffices). -/
def replaceScan (rule : Bool → List Char → Option Nat) :
    Nat → Bool → List Char → List Char
  | 0, _, l => l
  | _ + 1, _, [] => []
  | fuel + 1, prevW, c :: rest =>
    match rule prevW (c :: rest) with
    | some n =>
      if n = 0 then c :: replaceScan rule fuel (isWordChar c) rest
      else replaceScan rule fuel (isWordChar ((c :: rest).getD (n - 1) ' '))
        ((c :: rest).drop n)
    | none => c :: replaceScan rule fuel (isWordChar c) rest

/-- Model of `text.replace(rule-regex, '')` with the `g` flag. -/
def replaceAllRule (rule : Bool → List Char → Option Nat) (l : List Char) : List Char :=
  replaceScan rule l.length false l

/-- Function `cleanTaskText` (speech.ts): strip priority phrases, category phrases,
`categorize as` phrases and `tag` phrases, then trim. -/
def cleanTaskText (t : List Char) : List Char :=
  trimJS (replaceAllRule tagRule (replaceAllRule categorizeRule
    (replaceAllRule catPhraseRule (replaceAllRule priorityRule t))))

/-- The ordered `^head (.+)$` patterns of the Add family. -/
def addHeads : List String :=
  ["add ", "create ", "new ", "todo ", "remind me to ", "i need to "]

/-- Ordered Complete-family match: three `^verb (.+)$` patterns, then the
`mark ... as done|complete` pattern, then two dedicated digit patterns. -/
def completeCapture (t : List Char) : Option (List Char) :=
  match firstTail ["complete ", "done ", "finish "] t with
  | some r => some r
  | none =>
    match markCapture t with
    | some r => some r
    | none =>
      match digitCapture "complete task " t with
      | some r => some r
      | none => digitCapture "done with task " t

/-- Ordered Delete-family match. -/
def deleteCapture (t : List Char) : Option (List Char) :=
  match firstTail ["delete ", "remove ", "cancel "] t with
  | some r => some r
  | none =>
    match digitCapture "delete task " t with
    | some r => some r
    | none => digitCapture "remove task " t

/-- Build the Complete/Delete command from a captured reference:
`index = parseInt(ref) - 1` when it is a number, free text otherwise. -/
def mkRefCommand (a : VAction) (taskRef : List Char) : VoiceCommand :=
  match parseIntJS taskRef with
  | some n => { action := a, index := some (n - 1) }
  | none => { action := a, text := some taskRef }

/-- Function `parseVoiceCommand` (speech.ts): lower-case and trim, then try the Add,
Complete, Delete families in order, then the unanchored clear-all substring
test, falling back to Unknown with the raw transcript. -/
def parseVoiceCommand (transcript : String) : VoiceCommand :=
  let text := trimJS (transcript.data.map Char.toLower)
  match firstTail addHeads text with
  | some taskText =>
    { action := .add, text := some (cleanTaskText taskText),
      priority := some (extractPriority taskText),
      category := extractCategory taskText }
  | none =>
    match completeCapture text with
    | some taskRef => mkRefCommand .complete taskRef
    | none =>
      match deleteCapture text with
      | some taskRef => mkRefCommand .delete taskRef
      | none =>
        if containsStr "clear all" text || containsStr "delete all" text ||
            containsStr "remove all" text then
          { action := .clear }
        else
          { action := .unknown, text := some transcript.data }

/-- Function `getVoiceCommands` (speech.ts): the command list advertised to the user. -/
def getVoiceCommands : List String :=
  ["Add [task]", "Create [task]", "New [task]", "Todo [task]",
   "Remind me to [task]", "Complete [task]", "Done [task]",
   "Complete task [number]", "Delete [task]", "Remove [task]",
   "Delete task [number]", "Clear all", "Delete all"]

/-- Structure `Todo` from types.ts. `id` is the nanoid string; creation and completion
times are abstract clock readings. -/
structure Todo where
  id : String
  text : List Char
  completed : Bool
  createdAt : Nat
  completedAt : Option Nat := none
  priority : Priority
  category : Option (List Char) := none
deriving DecidableEq, Repr

/-- Spoken-feedback lines produced by one executor call, in order. -/
abbrev Feedback := List (List Char)

/-- Function `addTodo` (useTodos): build the new todo with trimmed text and push it at
the FRONT of the list; speak `Added task: ...` with the untrimmed text. -/
def addTodo (newId : String) (now : Nat) (text : List Char) (priority : Priority)
    (category : Option (List Char)) (todos : List Todo) : List Todo × Feedback :=
  let newTodo : Todo :=
    { id := newId, text := trimJS text, completed := false, createdAt := now,
      completedAt := none, priority := priority, category := category }
  (newTodo :: todos, ["Added task: ".data ++ text])

/-- Function `completeTodo` (useTodos): mark the todo with this id completed; the
spoken text is looked up in the pre-state. -/
def completeTodo (now : Nat) (tid : String) (todos : List Todo) : List Todo × Feedback :=
  (todos.map (fun t =>
    if t.id = tid then { t with completed := true, completedAt := some now } else t),
   match todos.find? (fun t => t.id == tid) with
   | some t => ["Completed task: ".data ++ t.text]
   | none => [])

/-- Function `deleteTodo` (useTodos): remove the todo with this id. -/
def deleteTodo (tid : String) (todos : List Todo) : List Todo × Feedback :=
  (todos.filter (fun t => !(t.id == tid)),
   match todos.find? (fun t => t.id == tid) with
   | some t => ["Deleted task: ".data ++ t.text]
   | none => [])

/-- Function `clearAllTodos` (useTodos). -/
def clearAllTodos (_todos : List Todo) : List Todo × Feedback :=
  ([], ["All tasks cleared".data])

/-- Function `findTodoByText` (useTodos): first todo (completed or not) whose text
contains the reference, case-insensitively. -/
def findTodoByText (txt : List Char) (todos : List Todo) : Option Todo :=
  todos.find? (fun t => containsL (txt.map Char.toLower) (t.text.map Char.toLower))

/-- Function `findTodoByIndex` (useTodos): 0-based position among the currently
incomplete todos; a negative or out-of-range index yields nothing. -/
def findTodoByIndex (i : Int) (todos : List Todo) : Option Todo :=
  let active := todos.filter (fun t => !t.completed)
  if 0 ≤ i then active.get? i.toNat else none

/-- Function `executeVoiceCommand` (useTodos): resolve the command against the todo
list and return the new list together with the spoken feedback. JS
truthiness of `command.text` makes the empty string behave like `undefined`. -/
def executeVoiceCommand (newId : String) (now : Nat) (cmd : VoiceCommand)
    (todos : List Todo) : List Todo × Feedback :=
  match cmd.action with
  | .add =>
    match cmd.text with
    | some t =>
      if t.isEmpty then (todos, [])
      else addTodo newId now t (cmd.priority.getD .low) cmd.category todos
    | none => (todos, [])
  | .complete =>
    match cmd.index with
    | some i =>
      match findTodoByIndex i todos with
      | some t => completeTodo now t.id todos
      | none => (todos, ["Task not found".data])
    | none =>
      match cmd.text with
      | some txt =>
        if txt.isEmpty then (todos, [])
        else
          match findTodoByText txt todos with
          | some t => completeTodo now t.id todos
          | none => (todos, ["Task not found".data])
      | none => (todos, [])
  | .delete =>
    match cmd.index with
    | some i =>
      match findTodoByIndex i todos with
      | some t => deleteTodo t.id todos
      | none => (todos, ["Task not found".data])
    | none =>
      match cmd.text with
      | some txt =>
        if txt.isEmpty then (todos, [])
        else
          match findTodoByText txt todos with
          | some t => deleteTodo t.id todos
          | none => (todos, ["Task not found".data])
      | none => (todos, [])
  | .clear => clearAllTodos todos
  | .unknown =>
    (todos,
     ["Sorry, I did not understand that command. Try saying add, complete, delete, or clear all.".data])

/-- Structure `VoiceAnalytics` (useSpeechRecognition). -/
structure VoiceAnalytics where
  totalAttempts : Nat
  successfulRecognitions : Nat
  averageConfidence : ℚ
  errorRate : ℚ
  lastErrorType : Option (List Char) := none
deriving DecidableEq, Repr

/-- Observable state of the `useSpeechRecognition` hook: the React state
variables plus the mutable refs (`retryCountRef`, `confidenceHistoryRef`),
the pending 10 s timeout, and whether a 1 s retry restart is scheduled. -/
structure RecState where
  isListening : Bool
  transcript : List Char
  confidence : ℚ
  error : Option (List Char)
  isVoiceDetected : Bool
  dynamicConfidenceThreshold : ℚ
  analytics : VoiceAnalytics
  retryCount : Nat
  confidenceHistory : List ℚ
  timeoutActive : Bool
  retryScheduled : Bool
deriving DecidableEq, Repr

/-- Initial hook state (all `useState` initialisers and refs). -/
def initRecState : RecState :=
  { isListening := false, transcript := [], confidence := 0, error := none,
    isVoiceDetected := false, dynamicConfidenceThreshold := 1/2,
    analytics :=
      { totalAttempts := 0, successfulRecognitions := 0,
        averageConfidence := 0, errorRate := 0 },
    retryCount := 0, confidenceHistory := [], timeoutActive := false,
    retryScheduled := false }

/-- Function `adjustConfidenceThreshold` (useSpeechRecognition): user-preference
setter, clamped to `[0.1, 1.0]`. -/
def adjustConfidenceThreshold (threshold : ℚ) (s : RecState) : RecState :=
  { s with dynamicConfidenceThreshold := max (1/10) (min 1 threshold) }

/-- The history push of `updateAnalytics`: append the new confidence and
shift the oldest entry out when the window exceeds 10 entries. -/
def pushHistory (hist : List ℚ) (c : ℚ) : List ℚ :=
  let hist1 := hist ++ [c]
  if hist1.length > 10 then hist1.drop 1 else hist1

/-- The auto-adjust rule of `updateAnalytics`: tighten to
`max(0.3, avg - 0.2)` when doing well, loosen to `min(0.7, avg + 0.1)` when
struggling, otherwise keep the current threshold. `prevErrorRate` is the
error rate from BEFORE this outcome. -/
def autoThreshold (newAvg prevErrorRate current : ℚ) : ℚ :=
  if newAvg > 8/10 ∧ prevErrorRate < 10 then
    max (3/10) (newAvg - 2/10)
  else if newAvg < 6/10 ∨ prevErrorRate > 20 then
    min (7/10) (newAvg + 1/10)
  else current

/-- Function `updateAnalytics` (useSpeechRecognition): update the rolling counters;
on a success with a confidence score, push it into the 10-entry history,
recompute the average, and auto-adjust the dynamic threshold. -/
def updateAnalytics (success : Bool) (confidenceScore : Option ℚ)
    (errorType : Option (List Char)) (s : RecState) : RecState :=
  let prev := s.analytics
  let newTotalAttempts := prev.totalAttempts + 1
  let newSuccessfulRecognitions :=
    if success then prev.successfulRecognitions + 1 else prev.successfulRecognitions
  let newErrorRate : ℚ :=
    ((newTotalAttempts : ℚ) - (newSuccessfulRecognitions : ℚ)) / (newTotalAttempts : ℚ) * 100
  match success, confidenceScore with
  | true, some c =>
    let hist2 := pushHistory s.confidenceHistory c
    let newAverageConfidence : ℚ := hist2.sum / (hist2.length : ℚ)
    { s with
      analytics :=
        { totalAttempts := newTotalAttempts,
          successfulRecognitions := newSuccessfulRecognitions,
          averageConfidence := newAverageConfidence,
          errorRate := newErrorRate, lastErrorType := errorType },
      confidenceHistory := hist2,
      dynamicConfidenceThreshold :=
        autoThreshold newAverageConfidence prev.errorRate s.dynamicConfidenceThreshold }
  | _, _ =>
    { s with
      analytics :=
        { totalAttempts := newTotalAttempts,
          successfulRecognitions := newSuccessfulRecognitions,
          averageConfidence := prev.averageConfidence,
          errorRate := newErrorRate, lastErrorType := errorType } }

/-- Decimal digits of a number (fuelled; used for the retry status text). -/
def natCharsAux : Nat → Nat → List Char → List Char
  | 0, _, acc => acc
  | fuel + 1, n, acc =>
    let d := Char.ofNat (48 + n % 10)
    if n < 10 then d :: acc else natCharsAux fuel (n / 10) (d :: acc)

/-- Decimal digits of a number. -/
def natChars (n : Nat) : List Char :=
  natCharsAux (n + 1) n []

/-- The `No speech detected. Retrying... (n/3)` status surfaced on a retry. -/
def retryMsg (n : Nat) : List Char :=
  "No speech detected. Retrying... (".data ++ natChars n ++ "/3)".data

/-- The terminal message of the exhausted-retries branch. -/
def exhaustedMsg : List Char :=
  "No speech detected after multiple attempts. Please speak clearly and try again.".data

/-- Handler `recognition.onstart`: listening begins, the error is cleared, the retry
counter is RESET TO ZERO, and the 10 s timeout is armed. A start event is
emitted by the recognizer both for a user-initiated start and for the
delayed `start()` issued by the retry timer (which it consumes). -/
def onStart (s : RecState) : RecState :=
  { s with
    isListening := true, error := none, retryCount := 0,
    timeoutActive := true, retryScheduled := false }

/-- Handler `recognition.onend`. -/
def onEnd (s : RecState) : RecState :=
  { s with isListening := false, isVoiceDetected := false, timeoutActive := false }

/-- Handler `recognition.onerror`: stop listening, clear the timeout, record the
failure, then classify the error; `no-speech` schedules a 1 s retry while
`retryCount < 2`, otherwise surfaces the exhausted message. -/
def onError (kind : List Char) (s : RecState) : RecState :=
  let s1 := { s with isListening := false, isVoiceDetected := false, timeoutActive := false }
  let s2 := updateAnalytics false none (some kind) s1
  if kind = "no-speech".data then
    if s2.retryCount < 2 then
      { s2 with
        retryCount := s2.retryCount + 1,
        error := some (retryMsg (s2.retryCount + 1)),
        retryScheduled := true }
    else
      { s2 with error := some exhaustedMsg }
  else if kind = "audio-capture".data then
    { s2 with error := some "Microphone access denied. Please allow microphone access and refresh the page.".data }
  else if kind = "not-allowed".data then
    { s2 with error := some "Microphone access not allowed. Please check browser settings and allow microphone access.".data }
  else if kind = "network".data then
    { s2 with error := some "Network error. Please check your connection and try again.".data }
  else if kind = "service-not-allowed".data then
    { s2 with error := some "Speech recognition service not available. Please try again later.".data }
  else
    { s2 with error := some ("Speech recognition error: ".data ++ kind ++ ". Please try again.".data) }

/-- Recognizer callback events (the asynchronous boundary). -/
inductive RecEv
  | start
  | ended
  | error (kind : List Char)
deriving DecidableEq, Repr

/-- Dispatch one recognizer event to its handler. -/
def recStep (s : RecState) : RecEv → RecState
  | .start => onStart s
  | .ended => onEnd s
  | .error k => onError k s

/-- Run a sequence of recognizer events. -/
def runRec (s : RecState) (evs : List RecEv) : RecState :=
  evs.foldl recStep s

/-- Function `startListening` (useSpeechRecognition): a no-op while already
listening; otherwise reset the per-session state and invoke the
recognizer's `start()`. The `Bool` records whether `start()` was invoked. -/
def startListening (s : RecState) : RecState × Bool :=
  if s.isListening then (s, false)
  else
    ({ s with
       error := none, transcript := [], confidence := 0,
       isVoiceDetected := false, retryCount := 0 }, true)

/-- The event trace of a session in which the recognizer reports `no-speech`
`k` times, each retry restart succeeding (every `start()` call fires
`onstart`). -/
def noSpeechPairs : Nat → List RecEv
  | 0 => []
  | k + 1 => RecEv.start :: RecEv.error "no-speech".data :: noSpeechPairs k

/-- One terminal recognition outcome fed to `updateAnalytics`. -/
structure Outcome where
  success : Bool
  confidence : Option ℚ
  errorType : Option (List Char)

/-- Run a sequence of recognition outcomes through `updateAnalytics`. -/
def runOutcomes (s : RecState) (os : List Outcome) : RecState :=
  os.foldl (fun s o => updateAnalytics o.success o.confidence o.errorType s) s

/-- The App-level acceptance gate (App.tsx voice-command effect): the
transcript is interpreted when it is nonempty, the session has ended, and
the confidence exceeds the constant `0.5`. -/
def acceptsForInterpretation (transcript : List Char) (isListening : Bool)
    (confidence : ℚ) : Bool :=
  !transcript.isEmpty && !isListening && decide ((1/2 : ℚ) < confidence)

/-- Invariant carried through sequences of recognition outcomes: every
stored confidence lies in `[0, 1]` and the dynamic threshold stays in
`[0.1, 0.8]`. -/
def recInv (s : RecState) : Prop :=
  (∀ c ∈ s.confidenceHistory, 0 ≤ c ∧ c ≤ 1) ∧
  1/10 ≤ s.dynamicConfidenceThreshold ∧ s.dynamicConfidenceThreshold ≤ 4/5

end Voicey

namespace Voicey

/-! ### Supporting lemmas -/

/-- Sample task list used by concrete witnesses. -/
def sampleTodos : List Todo :=
  [{ id := "t1", text := "buy milk".data, completed := false, createdAt := 0,
     priority := .low }]

lemma mean_bounds (l : List ℚ) (h : ∀ c ∈ l, 0 ≤ c ∧ c ≤ 1) (hne : l ≠ []) :
    0 ≤ l.sum / (l.length : ℚ) ∧ l.sum / (l.length : ℚ) ≤ 1 := by
  have hlen : (0 : ℚ) < (l.length : ℚ) := by
    exact_mod_cast List.length_pos.mpr hne
  refine ⟨div_nonneg (List.sum_nonneg fun x hx => (h x hx).1) hlen.le, ?_⟩
  rw [div_le_one hlen]
  calc l.sum ≤ l.length • (1 : ℚ) := List.sum_le_card_nsmul l 1 fun x hx => (h x hx).2
    _ = (l.length : ℚ) := by simp

lemma pushHistory_mem (hist : List ℚ) (c x : ℚ) (hx : x ∈ pushHistory hist c) :
    x ∈ hist ∨ x = c := by
  unfold pushHistory at hx
  by_cases h10 : (hist ++ [c]).length > 10
  · simp only [h10, if_true] at hx
    have hx' : x ∈ hist ++ [c] := List.drop_subset 1 (hist ++ [c]) hx
    rcases List.mem_append.mp hx' with h | h
    · exact Or.inl h
    · simp only [List.mem_singleton] at h
      exact Or.inr h
  · simp only [h10, if_false] at hx
    rcases List.mem_append.mp hx with h | h
    · exact Or.inl h
    · simp only [List.mem_singleton] at h
      exact Or.inr h

lemma pushHistory_ne_nil (hist : List ℚ) (c : ℚ) : pushHistory hist c ≠ [] := by
  unfold pushHistory
  by_cases h10 : (hist ++ [c]).length > 10
  · simp only [h10, if_true]
    apply List.length_pos.mp
    rw [List.length_drop]
    omega
  · simp only [h10, if_false]
    simp

lemma autoThreshold_bounds (avg pe cur : ℚ) (havg : 0 ≤ avg ∧ avg ≤ 1)
    (hcur : 1/10 ≤ cur ∧ cur ≤ 4/5) :
    1/10 ≤ autoThreshold avg pe cur ∧ autoThreshold avg pe cur ≤ 4/5 := by
  unfold autoThreshold
  split
  · refine ⟨?_, max_le (by norm_num) (by linarith [havg.2])⟩
    calc (1 : ℚ)/10 ≤ 3/10 := by norm_num
      _ ≤ max (3/10) (avg - 2/10) := le_max_left _ _
  · split
    · refine ⟨le_min (by norm_num) (by linarith [havg.1]), ?_⟩
      calc min ((7 : ℚ)/10) (avg + 1/10) ≤ 7/10 := min_le_left _ _
        _ ≤ 4/5 := by norm_num
    · exact hcur

lemma updateAnalytics_inv (success : Bool) (conf : Option ℚ)
    (err : Option (List Char)) (s : RecState) (hs : recInv s)
    (hc : ∀ c, conf = some c → 0 ≤ c ∧ c ≤ 1) :
    recInv (updateAnalytics success conf err s) := by
  obtain ⟨hhist, hlo, hhi⟩ := hs
  cases success with
  | false =>
    cases conf with
    | none => exact ⟨hhist, hlo, hhi⟩
    | some c => exact ⟨hhist, hlo, hhi⟩
  | true =>
    cases conf with
    | none => exact ⟨hhist, hlo, hhi⟩
    | some c =>
      have hmem : ∀ x ∈ pushHistory s.confidenceHistory c, 0 ≤ x ∧ x ≤ 1 := by
        intro x hx
        rcases pushHistory_mem s.confidenceHistory c x hx with h | h
        · exact hhist x h
        · subst h
          exact hc x rfl
      have havg := mean_bounds (pushHistory s.confidenceHistory c) hmem
        (pushHistory_ne_nil s.confidenceHistory c)
      have hthr := autoThreshold_bounds
        ((pushHistory s.confidenceHistory c).sum /
          ((pushHistory s.confidenceHistory c).length : ℚ))
        s.analytics.errorRate s.dynamicConfidenceThreshold havg ⟨hlo, hhi⟩
      exact ⟨hmem, hthr.1, hthr.2⟩

lemma initRecState_inv : recInv initRecState := by
  refine ⟨?_, by norm_num [initRecState], by norm_num [initRecState]⟩
  intro c hc
  simp [initRecState] at hc

lemma runOutcomes_inv : ∀ (os : List Outcome) (s : RecState), recInv s →
    (∀ o ∈ os, ∀ c, o.confidence = some c → 0 ≤ c ∧ c ≤ 1) →
    recInv (runOutcomes s os) := by
  intro os
  induction os with
  | nil =>
    intro s hs _
    simpa [runOutcomes] using hs
  | cons o os ih =>
    intro s hs hos
    have h1 : recInv (updateAnalytics o.success o.confidence o.errorType s) :=
      updateAnalytics_inv o.success o.confidence o.errorType s hs
        (fun c hcEq => hos o (by simp) c hcEq)
    have h2 := ih (updateAnalytics o.success o.confidence o.errorType s) h1
      (fun o' ho' => hos o' (by simp [ho']))
    simpa [runOutcomes] using h2

lemma thresholdAfterOneSuccess :
    (updateAnalytics true (some 1) none initRecState).dynamicConfidenceThreshold = 4/5 := by
  simp only [updateAnalytics, pushHistory, autoThreshold, initRecState]
  norm_num

lemma noSpeech_pair_step (s : RecState) :
    (recStep (recStep s .start) (.error "no-speech".data)).retryScheduled = true ∧
    (recStep (recStep s .start) (.error "no-speech".data)).retryCount = 1 ∧
    (recStep (recStep s .start) (.error "no-speech".data)).error = some (retryMsg 1) := by
  simp [recStep, onStart, onError, updateAnalytics]

lemma noSpeechPairs_state : ∀ (k : Nat) (s : RecState),
    (runRec s (noSpeechPairs (k + 1))).retryScheduled = true ∧
    (runRec s (noSpeechPairs (k + 1))).retryCount = 1 ∧
    (runRec s (noSpeechPairs (k + 1))).error = some (retryMsg 1) := by
  intro k
  induction k with
  | zero =>
    intro s
    simpa [runRec, noSpeechPairs] using noSpeech_pair_step s
  | succ k ih =>
    intro s
    have h : runRec s (noSpeechPairs (k + 1 + 1)) =
        runRec (recStep (recStep s .start) (.error "no-speech".data))
          (noSpeechPairs (k + 1)) := by
      simp [runRec, noSpeechPairs]
    rw [h]
    exact ih _

/-! ### Claim theorems -/

/-- Claim C1, counterexample: a single successful outcome with (in-range)
confidence 1.0 drives the automatic adaptation to set the threshold to 0.8,
outside the claimed clamp `[0.3, 0.7]` (the tighten branch clamps only from
below). -/
theorem adaptedThreshold_escapes_claimed_clamp :
    ((0 : ℚ) ≤ 1 ∧ (1 : ℚ) ≤ 1) ∧
    (updateAnalytics true (some 1) none initRecState).dynamicConfidenceThreshold = 4/5 ∧
    ¬ ((updateAnalytics true (some 1) none initRecState).dynamicConfidenceThreshold ≤ 7/10) := by
  refine ⟨by norm_num, thresholdAfterOneSuccess, ?_⟩
  rw [thresholdAfterOneSuccess]
  norm_num

/-- Claim C1, amended: over every sequence of recognition outcomes whose
confidences lie in `[0, 1]`, the dynamic threshold stays within `[0.1, 0.8]`
(tighten clamps below at 0.3 and can reach 0.8; loosen clamps above at 0.7
and can reach 0.1); a direct user set via `adjustConfidenceThreshold` always
lands in `[0.1, 1.0]`. -/
theorem adaptedThreshold_within_tenth_and_four_fifths :
    (∀ os : List Outcome,
       (∀ o ∈ os, ∀ c, o.confidence = some c → 0 ≤ c ∧ c ≤ 1) →
       1/10 ≤ (runOutcomes initRecState os).dynamicConfidenceThreshold ∧
       (runOutcomes initRecState os).dynamicConfidenceThreshold ≤ 4/5) ∧
    (∀ (x : ℚ) (s : RecState),
       1/10 ≤ (adjustConfidenceThreshold x s).dynamicConfidenceThreshold ∧
       (adjustConfidenceThreshold x s).dynamicConfidenceThreshold ≤ 1) := by
  constructor
  · intro os hos
    have h := runOutcomes_inv os initRecState initRecState_inv hos
    exact ⟨h.2.1, h.2.2⟩
  · intro x s
    refine ⟨le_max_left _ _, max_le (by norm_num) (min_le_left _ _)⟩

/-- Witness for the amended C1 theorem at the one-success outcome sequence. -/
theorem adaptedThreshold_within_bounds_witness :
    1/10 ≤ (runOutcomes initRecState [⟨true, some 1, none⟩]).dynamicConfidenceThreshold ∧
    (runOutcomes initRecState [⟨true, some 1, none⟩]).dynamicConfidenceThreshold ≤ 4/5 :=
  adaptedThreshold_within_tenth_and_four_fifths.1 [⟨true, some 1, none⟩] (by
    intro o ho c hcEq
    simp only [List.mem_singleton] at ho
    subst ho
    simp only [Option.some.injEq] at hcEq
    subst hcEq
    norm_num)

/-- Claim C2 (code bug): `onstart` resets the retry counter on every start,
including the restart issued by the retry timer, so after the third
consecutive `no-speech` error the session again schedules a retry with
status `(1/3)` instead of reaching the exhausted terminal state; the retry
loop is unbounded. -/
theorem third_noSpeech_schedules_another_retry :
    ((runRec initRecState (noSpeechPairs 3)).analytics.totalAttempts = 3 ∧
     (runRec initRecState (noSpeechPairs 3)).retryScheduled = true ∧
     (runRec initRecState (noSpeechPairs 3)).error = some (retryMsg 1) ∧
     (runRec initRecState (noSpeechPairs 3)).error ≠ some exhaustedMsg) ∧
    ∀ k : Nat, (runRec initRecState (noSpeechPairs (k + 1))).retryScheduled = true := by
  constructor
  · exact ⟨by decide, by decide, by decide, by decide⟩
  · intro k
    exact (noSpeechPairs_state k initRecState).1

/-- Claim C3 (code bug): `complete task 2` and `delete task 3` are captured
by the generic `^complete (.+)$` / `^delete (.+)$` patterns, `parseInt`
yields NaN on `task N`, so the command carries the free text `task N` and no
index, although the advertised command list promises numeric forms. -/
theorem completeTaskNumber_parses_as_free_text :
    parseVoiceCommand "complete task 2" =
      { action := .complete, text := some "task 2".data } ∧
    (parseVoiceCommand "complete task 2").index = none ∧
    parseVoiceCommand "delete task 3" =
      { action := .delete, text := some "task 3".data } ∧
    "Complete task [number]" ∈ getVoiceCommands ∧
    "Delete task [number]" ∈ getVoiceCommands := by
  exact ⟨by decide, by decide, by decide, by decide, by decide⟩

/-- Claim C4, counterexample: the App gate accepts confidence 0.6 although
the dynamic threshold (after one high-confidence success) is 0.8, so
acceptance is NOT `confidence > dynamic threshold`. -/
theorem acceptGate_ignores_dynamicThreshold :
    acceptsForInterpretation "add buy milk".data false (3/5) = true ∧
    ¬ ((3/5 : ℚ) > (updateAnalytics true (some 1) none initRecState).dynamicConfidenceThreshold) := by
  constructor
  · norm_num [acceptsForInterpretation]
  · rw [gt_iff_lt, thresholdAfterOneSuccess]
    norm_num

/-- Claim C4, amended: a final transcript is passed to the interpreter iff
it is nonempty, the session has ended, and its confidence exceeds the FIXED
initial threshold 0.5; the adaptive threshold maintained by the hook is
never consulted by the gate. -/
theorem acceptGate_iff_fixed_half :
    ∀ (t : List Char) (l : Bool) (c : ℚ),
      acceptsForInterpretation t l c = true ↔
        (t ≠ [] ∧ l = false ∧ initRecState.dynamicConfidenceThreshold < c) := by
  intro t l c
  cases l with
  | false =>
    cases t with
    | nil => simp [acceptsForInterpretation, initRecState]
    | cons a t => simp [acceptsForInterpretation, initRecState]
  | true =>
    cases t with
    | nil => simp [acceptsForInterpretation, initRecState]
    | cons a t => simp [acceptsForInterpretation, initRecState]

/-- Witness for the amended C4 theorem at a concrete accepted input. -/
theorem acceptGate_iff_fixed_half_witness :
    acceptsForInterpretation "add buy milk".data false 1 = true ↔
      ("add buy milk".data ≠ [] ∧ false = false ∧
       initRecState.dynamicConfidenceThreshold < 1) :=
  acceptGate_iff_fixed_half "add buy milk".data false 1

/-- Claim C5, counterexample: `delete all` contains the substring
`delete all` but is captured first by the Delete family, producing
`Delete{text := "all"}` rather than Clear. -/
theorem deleteAll_parses_as_delete :
    containsStr "delete all" (trimJS ("delete all".data.map Char.toLower)) = true ∧
    parseVoiceCommand "delete all" = { action := .delete, text := some "all".data } ∧
    parseVoiceCommand "delete all" ≠ { action := .clear } := by
  exact ⟨by decide, by decide, by decide⟩

/-- Claim C5, amended: a transcript containing `clear all`, `delete all` or
`remove all` parses to Clear PROVIDED no Add, Complete or Delete pattern
matches it first (the intent families are tried in order). -/
theorem clearAll_when_no_earlier_family_matches (s : String)
    (hsub : (containsStr "clear all" (trimJS (s.data.map Char.toLower)) ||
             containsStr "delete all" (trimJS (s.data.map Char.toLower)) ||
             containsStr "remove all" (trimJS (s.data.map Char.toLower))) = true)
    (hadd : firstTail addHeads (trimJS (s.data.map Char.toLower)) = none)
    (hcomp : completeCapture (trimJS (s.data.map Char.toLower)) = none)
    (hdel : deleteCapture (trimJS (s.data.map Char.toLower)) = none) :
    parseVoiceCommand s = { action := .clear } := by
  unfold parseVoiceCommand
  simp only [hadd, hcomp, hdel, hsub, if_true]

/-- Witness for the amended C5 theorem: `please clear all` parses to Clear. -/
theorem clearAll_when_no_earlier_family_matches_witness :
    parseVoiceCommand "please clear all" = { action := .clear } :=
  clearAll_when_no_earlier_family_matches "please clear all"
    (by decide) (by decide) (by decide) (by decide)

/-- Claim C6: when target resolution of a Complete/Delete command fails
(out-of-range index over the incomplete tasks, or free text matching no
task), the executor speaks exactly `Task not found` and the list is
unchanged. -/
theorem taskNotFound_no_mutation (newId : String) (now : Nat)
    (cmd : VoiceCommand) (todos : List Todo)
    (hact : cmd.action = .complete ∨ cmd.action = .delete)
    (hfail : (∃ i, cmd.index = some i ∧ findTodoByIndex i todos = none) ∨
             (cmd.index = none ∧ ∃ txt, cmd.text = some txt ∧ txt ≠ [] ∧
              findTodoByText txt todos = none)) :
    executeVoiceCommand newId now cmd todos = (todos, ["Task not found".data]) := by
  rcases hfail with ⟨i, hi, hfind⟩ | ⟨hidx, txt, htxt, hne, hfind⟩
  · rcases hact with h | h
    · simp [executeVoiceCommand, h, hi, hfind]
    · simp [executeVoiceCommand, h, hi, hfind]
  · have hne' : txt.isEmpty = false := by
      cases txt with
      | nil => exact absurd rfl hne
      | cons a t => rfl
    rcases hact with h | h
    · simp [executeVoiceCommand, h, hidx, htxt, hne', hfind]
    · simp [executeVoiceCommand, h, hidx, htxt, hne', hfind]

/-- Witness for C6: deleting `laundry` from a list without it. -/
theorem taskNotFound_no_mutation_witness :
    executeVoiceCommand "t2" 1 { action := .delete, text := some "laundry".data }
        sampleTodos = (sampleTodos, ["Task not found".data]) :=
  taskNotFound_no_mutation "t2" 1 _ _ (Or.inr rfl)
    (Or.inr ⟨rfl, "laundry".data, rfl, by decide, by decide⟩)

/-- Claim C7: `startListening` while a session is listening is a no-op: the
state is returned unchanged and the recognizer is not started. -/
theorem startListening_noop_while_listening (s : RecState)
    (h : s.isListening = true) :
    startListening s = (s, false) := by
  simp [startListening, h]

/-- Witness for C7 at a concrete listening state. -/
theorem startListening_noop_witness :
    startListening (onStart initRecState) = (onStart initRecState, false) :=
  startListening_noop_while_listening (onStart initRecState) rfl

/-- Claim C8: the Add-grammar priority is always one of low/medium/high,
defaults to low when the task text contains none of the priority phrases,
and `add buy milk high priority` yields Add with text `buy milk` and
priority high. -/
theorem addPriority_total_default_low :
    (∀ (s : String) (tt : List Char),
       firstTail addHeads (trimJS (s.data.map Char.toLower)) = some tt →
       (parseVoiceCommand s).priority = some (extractPriority tt)) ∧
    (∀ t : List Char,
       (containsStr "urgent" t || containsStr "high priority" t ||
        containsStr "important" t || containsStr "medium priority" t ||
        containsStr "normal" t) = false →
       extractPriority t = .low) ∧
    (∀ t : List Char, extractPriority t = .low ∨ extractPriority t = .medium ∨
       extractPriority t = .high) ∧
    parseVoiceCommand "add buy milk high priority" =
      { action := .add, text := some "buy milk".data, priority := some .high } := by
  refine ⟨?_, ?_, ?_, by decide⟩
  · intro s tt h
    unfold parseVoiceCommand
    simp only [h]
  · intro t h
    simp only [Bool.or_eq_false_iff] at h
    obtain ⟨⟨⟨⟨h1, h2⟩, h3⟩, h4⟩, h5⟩ := h
    simp [extractPriority, h1, h2, h3, h4, h5]
  · intro t
    unfold extractPriority
    split
    · simp
    · split
      · simp
      · simp

/-- Witness for C8: `buy milk` has no priority phrase, so priority is low. -/
theorem addPriority_default_low_witness :
    extractPriority "buy milk".data = .low ∧
    (parseVoiceCommand "add buy milk").priority =
      some (extractPriority "buy milk".data) :=
  ⟨addPriority_total_default_low.2.1 "buy milk".data (by decide),
   addPriority_total_default_low.1 "add buy milk" "buy milk".data (by decide)⟩

/-- Claim C9: executing an Add command pushes the new task at the FRONT of
the list, and spoken index 1 (internal index 0) then resolves to that newest
incomplete task. -/
theorem addCommand_inserts_at_front (newId : String) (now : Nat)
    (cmd : VoiceCommand) (todos : List Todo) (t : List Char)
    (hact : cmd.action = .add) (htext : cmd.text = some t) (hne : t ≠ []) :
    (executeVoiceCommand newId now cmd todos).1 =
      { id := newId, text := trimJS t, completed := false, createdAt := now,
        completedAt := none, priority := cmd.priority.getD .low,
        category := cmd.category } :: todos ∧
    findTodoByIndex 0 (executeVoiceCommand newId now cmd todos).1 =
      some { id := newId, text := trimJS t, completed := false, createdAt := now,
             completedAt := none, priority := cmd.priority.getD .low,
             category := cmd.category } := by
  have hne' : t.isEmpty = false := by
    cases t with
    | nil => exact absurd rfl hne
    | cons a t => rfl
  constructor
  · simp [executeVoiceCommand, hact, htext, hne', addTodo]
  · simp [executeVoiceCommand, hact, htext, hne', addTodo, findTodoByIndex]

/-- Witness for C9 on a concrete Add command over the sample list. -/
theorem addCommand_inserts_at_front_witness :
    (executeVoiceCommand "t2" 5
        { action := .add, text := some "buy milk".data, priority := some .high }
        sampleTodos).1 =
      { id := "t2", text := trimJS "buy milk".data, completed := false,
        createdAt := 5, completedAt := none, priority := .high,
        category := none } :: sampleTodos ∧
    findTodoByIndex 0 (executeVoiceCommand "t2" 5
        { action := .add, text := some "buy milk".data, priority := some .high }
        sampleTodos).1 =
      some { id := "t2", text := trimJS "buy milk".data, completed := false,
             createdAt := 5, completedAt := none, priority := .high,
             category := none } :=
  addCommand_inserts_at_front "t2" 5 _ sampleTodos "buy milk".data rfl rfl (by decide)

/-- Claim C10: an Add command whose cleaned text is empty (for example from
the transcript `add urgent`) creates nothing, mutates nothing and speaks
nothing. -/
theorem emptyAdd_no_effect :
    (∀ (newId : String) (now : Nat) (cmd : VoiceCommand) (todos : List Todo),
       cmd.action = .add → (cmd.text = some [] ∨ cmd.text = none) →
       executeVoiceCommand newId now cmd todos = (todos, [])) ∧
    parseVoiceCommand "add urgent" =
      { action := .add, text := some [], priority := some .high } := by
  refine ⟨?_, by decide⟩
  intro newId now cmd todos hact htext
  rcases htext with h | h
  · simp [executeVoiceCommand, hact, h]
  · simp [executeVoiceCommand, hact, h]

/-- Witness for C10: executing the parse of `add urgent` changes nothing. -/
theorem emptyAdd_no_effect_witness :
    executeVoiceCommand "t9" 7 (parseVoiceCommand "add urgent") sampleTodos =
      (sampleTodos, []) :=
  emptyAdd_no_effect.1 "t9" 7 (parseVoiceCommand "add urgent") sampleTodos
    (by decide) (Or.inl (by decide))

end Voicey
